import Mathlib

/-!
# Motion orchestration (`src/scripts/motion.js`)

A shallow embedding of the script's timing utilities, of its registry
`MotionState`, of the four `setup*` components started by `initMotion`, and of
the public `LiquidGlass` API, followed by the properties checked on them.

Conventions of the embedding

* Clock readings (`Date.now()`) are integers in milliseconds; an interval
  handed to `throttle` / `debounce` is a natural number of milliseconds.
* The host's timer table is explicit: `setTimeout` appends a pending entry and
  returns its handle, `clearTimeout` drops the entry with that handle, and a
  virtual clock fires the pending entries in order of their due time.
* DOM elements are handles (`Node`); what the script reads or writes on an
  element is a field of `Element`, looked up through the page's `dom`.
-/

namespace Motion

/-! ## Timing utilities: `throttle` and `debounce` (lines 169-196) -/

/-- A timer registered with `setTimeout` and not yet fired or cleared: its
handle, the clock reading at which it fires, and the arguments its callback
closed over. -/
structure Timeout (α : Type) where
  id : Nat
  due : Int
  args : α
deriving DecidableEq, Repr

/-- The pending timer that fires first: smallest due time, and among equal due
times the one registered first. -/
def nextDue {α : Type} : List (Timeout α) → Option (Timeout α)
  | [] => none
  | tm :: rest =>
    match nextDue rest with
    | none => some tm
    | some o => if tm.due ≤ o.due then some tm else some o

/-- The wrapper returned by `throttle(func, delay)`: the closure variables
`timeoutId` and `lastExecTime`, the host's timer table, and the log of the
invocations of `func` (clock reading and arguments, oldest first). -/
structure Throttled (α : Type) where
  delay : Nat
  timeoutId : Option Nat
  lastExecTime : Int
  pending : List (Timeout α)
  nextId : Nat
  runs : List (Int × α)
deriving DecidableEq, Repr

/-- The state right after `throttle(func, delay)` returns:
`let timeoutId; let lastExecTime = 0;`. -/
def throttle {α : Type} (delay : Nat) : Throttled α :=
  { delay := delay, timeoutId := none, lastExecTime := 0,
    pending := [], nextId := 0, runs := [] }

/-- The host's `clearTimeout(handle)`: an unknown or undefined handle is
ignored. -/
def clearTimeout {α : Type} (handle : Option Nat) (pending : List (Timeout α)) :
    List (Timeout α) :=
  match handle with
  | none => pending
  | some i => pending.filter (fun tm => tm.id != i)

/-- The entry the host's `setTimeout(cb, ms)` registers at clock reading `now`
under the handle `id`; a negative `ms` counts as zero. -/
def newTimeout {α : Type} (id : Nat) (now ms : Int) (args : α) : Timeout α :=
  { id := id, due := now + max ms 0, args := args }

/-- One call of the throttled wrapper at clock reading `currentTime`
(lines 173-186). -/
def Throttled.call {α : Type} (currentTime : Int) (args : α) (s : Throttled α) :
    Throttled α :=
  if currentTime - s.lastExecTime > (s.delay : Int) then
    { s with runs := s.runs ++ [(currentTime, args)], lastExecTime := currentTime }
  else
    let cleared := clearTimeout s.timeoutId s.pending
    { s with
      pending := cleared ++
        [newTimeout s.nextId currentTime
          ((s.delay : Int) - (currentTime - s.lastExecTime)) args]
      timeoutId := some s.nextId
      nextId := s.nextId + 1 }

/-- The deferred callback of line 181-184 firing: the timer leaves the table,
`func` runs with the captured arguments and `lastExecTime = Date.now()`, the
clock reading being the timer's due time. -/
def Throttled.fire {α : Type} (tm : Timeout α) (s : Throttled α) : Throttled α :=
  { s with
    pending := s.pending.filter (fun o => o.id != tm.id)
    runs := s.runs ++ [(tm.due, tm.args)]
    lastExecTime := tm.due }

/-- The virtual clock moving forward to `limit` (to the end of time when
`limit` is `none`): every pending timer due by then fires, earliest first. -/
def Throttled.advance {α : Type} (limit : Option Int) :
    Nat → Throttled α → Throttled α
  | 0, s => s
  | fuel + 1, s =>
    match nextDue (s.pending.filter
        (fun tm => match limit with
          | none => true
          | some t => decide (tm.due ≤ t))) with
    | none => s
    | some tm => Throttled.advance limit fuel (s.fire tm)

/-- Calls of the wrapper at the given clock readings, the clock advancing from
one call to the next. -/
def Throttled.drive {α : Type} : List (Int × α) → Throttled α → Throttled α
  | [], s => s
  | (t, a) :: rest, s =>
    Throttled.drive rest ((Throttled.advance (some t) s.pending.length s).call t a)

/-- The invocations of the action caused by the given calls of a fresh
`throttle(action, delay)` wrapper and by nothing else, the clock running on
after the last call until no timer is left. -/
def throttleRuns {α : Type} (delay : Nat) (calls : List (Int × α)) : List (Int × α) :=
  let s := Throttled.drive calls (throttle delay)
  (Throttled.advance none s.pending.length s).runs

/-- The wrapper returned by `debounce(func, delay)`: the closure variable
`timeoutId`, the host's timer table and the log of the invocations of `func`. -/
structure Debounced (α : Type) where
  delay : Nat
  timeoutId : Option Nat
  pending : List (Timeout α)
  nextId : Nat
  runs : List (Int × α)
deriving DecidableEq, Repr

/-- One call of the debounced wrapper at clock reading `now` (lines 192-195). -/
def Debounced.call {α : Type} (now : Int) (args : α) (s : Debounced α) : Debounced α :=
  let cleared := clearTimeout s.timeoutId s.pending
  { s with
    pending := cleared ++ [newTimeout s.nextId now (s.delay : Int) args]
    timeoutId := some s.nextId
    nextId := s.nextId + 1 }

/-- The deferred callback of line 194 firing: `func` runs with the captured
arguments. -/
def Debounced.fire {α : Type} (tm : Timeout α) (s : Debounced α) : Debounced α :=
  { s with
    pending := s.pending.filter (fun o => o.id != tm.id)
    runs := s.runs ++ [(tm.due, tm.args)] }

/-- The virtual clock moving forward to `limit` (to the end of time when
`limit` is `none`): every pending timer due by then fires, earliest first. -/
def Debounced.advance {α : Type} (limit : Option Int) :
    Nat → Debounced α → Debounced α
  | 0, s => s
  | fuel + 1, s =>
    match nextDue (s.pending.filter
        (fun tm => match limit with
          | none => true
          | some t => decide (tm.due ≤ t))) with
    | none => s
    | some tm => Debounced.advance limit fuel (s.fire tm)

/-- Calls of the wrapper at the given clock readings, the clock advancing from
one call to the next. -/
def Debounced.drive {α : Type} : List (Int × α) → Debounced α → Debounced α
  | [], s => s
  | (t, a) :: rest, s =>
    Debounced.drive rest ((Debounced.advance (some t) s.pending.length s).call t a)

/-- A handle to a DOM element; two handles are the same element exactly when
they are equal. -/
abbrev Node := Nat

/-- What the script reads or writes on an element. An absent `data-width`
attribute and an unset inline style are the empty string (both are falsy in
the script's `||` chains). The custom properties `--scroll-translate` (in px)
and `--scroll-opacity` hold numbers, taken here as exact rationals. -/
structure Element where
  classList : List String
  datasetWidth : String
  styleWidth : String
  styleTransition : String
  styleTransform : String
  styleOpacity : String
  scrollTranslate : Option ℚ
  scrollOpacity : Option ℚ

/-- An assignment to an element's inline style. -/
inductive StyleWrite
  | width (v : String)
  | transition (v : String)
  | transform (v : String)
  | opacity (v : String)
  | scrollTranslate (px : ℚ)
  | scrollOpacity (v : ℚ)
deriving DecidableEq

/-- The element after one style assignment. -/
def Element.write (w : StyleWrite) (el : Element) : Element :=
  match w with
  | .width v => { el with styleWidth := v }
  | .transition v => { el with styleTransition := v }
  | .transform v => { el with styleTransform := v }
  | .opacity v => { el with styleOpacity := v }
  | .scrollTranslate px => { el with scrollTranslate := some px }
  | .scrollOpacity v => { el with scrollOpacity := some v }

/-- The two callbacks an `IntersectionObserver` is built with in the script. -/
inductive ObserverKind
  | scroll
  | progress
deriving DecidableEq, Repr

/-- An `IntersectionObserver`: the callback it was built with and the elements
it currently watches. -/
structure Observer where
  kind : ObserverKind
  watched : List Node
deriving DecidableEq, Repr

/-- The registry of lines 4-9. The `Set` and the `Map` are lists in insertion
order without repeated members / keys. -/
structure MotionState where
  isBreathing : Bool
  breathingNodes : List Node
  observers : List (String × Observer)
  rafId : Option Nat
deriving DecidableEq, Repr

/-- The registry as the script creates it (lines 4-9). -/
def MotionState.initial : MotionState :=
  { isBreathing := false, breathingNodes := [], observers := [], rafId := none }

/-- `Set.prototype.add`. -/
def setAdd (x : Node) (l : List Node) : List Node :=
  if x ∈ l then l else l ++ [x]

/-- `Set.prototype.delete`. -/
def setDelete (x : Node) (l : List Node) : List Node :=
  l.filter (fun y => y != x)

/-- `Map.prototype.has`. -/
def mapHas (k : String) (m : List (String × Observer)) : Bool :=
  m.any (fun e => e.1 == k)

/-- `Map.prototype.get`; `none` stands for `undefined`. -/
def mapGet (k : String) (m : List (String × Observer)) : Option Observer :=
  (m.find? (fun e => e.1 == k)).map Prod.snd

/-- `Map.prototype.set`: an existing key keeps its place. -/
def mapSet (k : String) (v : Observer) (m : List (String × Observer)) :
    List (String × Observer) :=
  if mapHas k m then m.map (fun e => if e.1 == k then (k, v) else e) else m ++ [(k, v)]

/-- The map after a method call on the object stored under `k` turned that
object from `o` into `g o` (the map itself holds the same keys). -/
def mapModify (k : String) (g : Observer → Observer) (m : List (String × Observer)) :
    List (String × Observer) :=
  m.map (fun e => if e.1 == k then (e.1, g e.2) else e)

/-- `observer.observe(node)`: watching a watched element again changes nothing. -/
def Observer.observe (x : Node) (o : Observer) : Observer :=
  { o with watched := setAdd x o.watched }

/-- `observer.unobserve(node)`. -/
def Observer.unobserve (x : Node) (o : Observer) : Observer :=
  { o with watched := setDelete x o.watched }

/-- A value returned by `Math.random()`: the number `num / den`, which lies in
`[0, 1)`. -/
structure UnitSample where
  num : Nat
  den : Nat
  lt : num < den

/-- The value `Math.random() * 200` of line 36. -/
def UnitSample.jitter (u : UnitSample) : ℚ := (u.num : ℚ) / (u.den : ℚ) * 200

/-- The whole milliseconds the host's `setTimeout` waits when handed
`Math.random() * 200`: the timer API truncates its delay to an integer. -/
def UnitSample.jitterMs (u : UnitSample) : Nat := u.num * 200 / u.den

/-- The callbacks the script hands to `setInterval` (line 50) and to
`setTimeout` (lines 38-44, closed over `node`). -/
inductive Callback
  | breathingCycle
  | breathe (node : Node)
deriving DecidableEq, Repr

/-- A pending timer of the page: handle, due time in ms since the page's
start, the period when it comes from `setInterval`, and its callback. -/
structure Timer where
  id : Nat
  due : Nat
  period : Option Nat
  callback : Callback
deriving DecidableEq, Repr

/-- The listeners the script adds to `document` in `setupHoverEffects`. -/
inductive Listener
  | throttledTilt (intervalMs : Nat)
  | resetTransforms
deriving DecidableEq, Repr

/-- A callback queued with `requestAnimationFrame` by the progress handler:
the bar and the `targetWidth` it closed over (lines 143-146). -/
structure Frame where
  bar : Node
  targetWidth : String
deriving DecidableEq, Repr

/-- An intersection notification handed to an observer callback. -/
structure Entry where
  target : Node
  intersectionRatio : ℚ
  isIntersecting : Bool

/-- The page the script runs in. Besides the registry `motion` it holds the
host facilities the script uses: whether `IntersectionObserver` exists, the
document's elements in document order, the DOM, the successive values of
`Math.random()`, the clock, the timer table, the listeners on `document`, the
queue of animation-frame callbacks and the console. Three fields only record
what happened: `cycles` counts the runs of `breathingCycle`, `styleLog` lists
every inline-style assignment and `frameLog` every `requestAnimationFrame`
call, oldest first. -/
structure Page where
  hasIntersectionObserver : Bool
  elements : List Node
  dom : Node → Element
  random : Nat → UnitSample
  randomCalls : Nat
  now : Nat
  timers : List Timer
  nextTimerId : Nat
  listeners : List (String × Listener)
  frames : List Frame
  console : List String
  motion : MotionState
  cycles : Nat
  styleLog : List (Node × StyleWrite)
  frameLog : List Node

/-- The page at the moment the script starts: the registry of lines 4-9, the
clock at 0, nothing scheduled. -/
def Page.initial (hasIntersectionObserver : Bool) (elements : List Node)
    (dom : Node → Element) (random : Nat → UnitSample) : Page :=
  { hasIntersectionObserver := hasIntersectionObserver, elements := elements, dom := dom,
    random := random, randomCalls := 0, now := 0, timers := [], nextTimerId := 0,
    listeners := [], frames := [], console := [], motion := MotionState.initial,
    cycles := 0, styleLog := [], frameLog := [] }

/-- `document.querySelectorAll('.' + cls)`. -/
def Page.querySelectorAll (cls : String) (p : Page) : List Node :=
  p.elements.filter (fun n => (p.dom n).classList.contains cls)

/-- An inline-style assignment on `node`. -/
def Page.writeStyle (node : Node) (w : StyleWrite) (p : Page) : Page :=
  { p with
    dom := Function.update p.dom node ((p.dom node).write w)
    styleLog := p.styleLog ++ [(node, w)] }

/-- `node.classList.add(cls)`. -/
def Page.classAdd (node : Node) (cls : String) (p : Page) : Page :=
  { p with
    dom := Function.update p.dom node
      { p.dom node with
        classList := if (p.dom node).classList.contains cls then (p.dom node).classList
          else (p.dom node).classList ++ [cls] } }

/-- `node.classList.remove(cls)`. -/
def Page.classRemove (node : Node) (cls : String) (p : Page) : Page :=
  { p with
    dom := Function.update p.dom node
      { p.dom node with classList := (p.dom node).classList.filter (fun c => c != cls) } }

/-- The JavaScript `a || b` on strings. -/
def orElse (a b : String) : String := if a = "" then b else a

/-! ## Breathing cycle (lines 22-51) -/

/-- Lines 36-44 for one node: a value is drawn from `Math.random()` and a timer
running the class update is registered, due `Math.random() * 200` (truncated
to whole milliseconds) from now. -/
def scheduleBreath (p : Page) (node : Node) : Page :=
  { p with
    randomCalls := p.randomCalls + 1
    timers := p.timers ++
      [{ id := p.nextTimerId, due := p.now + (p.random p.randomCalls).jitterMs,
         period := none, callback := .breathe node }]
    nextTimerId := p.nextTimerId + 1 }

/-- The function `breathingCycle` of lines 31-46. -/
def breathingCycle (p : Page) : Page :=
  let toggled : Page :=
    { p with
      motion := { p.motion with isBreathing := !p.motion.isBreathing }
      cycles := p.cycles + 1 }
  toggled.motion.breathingNodes.foldl scheduleBreath toggled

/-- The body of the delayed callback of lines 38-44; `isBreathing` is read
when the callback runs. -/
def breathe (node : Node) (p : Page) : Page :=
  if p.motion.isBreathing then p.classAdd node "is-breathing"
  else p.classRemove node "is-breathing"

/-- `setInterval(cb, ms)`. -/
def Page.setInterval (cb : Callback) (ms : Nat) (p : Page) : Page :=
  { p with
    timers := p.timers ++
      [{ id := p.nextTimerId, due := p.now + ms, period := some ms, callback := cb }]
    nextTimerId := p.nextTimerId + 1 }

/-- `setupBreathingCycle` (lines 22-51). -/
def setupBreathingCycle (p : Page) : Page :=
  let glassNodes := p.querySelectorAll "glass"
  let registered : Page :=
    { p with
      motion := { p.motion with
        breathingNodes := glassNodes.foldl (fun l node => setAdd node l)
          p.motion.breathingNodes } }
  (breathingCycle registered).setInterval .breathingCycle 6500

/-- The timer that fires first: smallest due time, and among equal due times
the one standing first in the table. -/
def nextTimer : List Timer → Option Timer
  | [] => none
  | tm :: rest =>
    match nextTimer rest with
    | none => some tm
    | some o => if tm.due ≤ o.due then some tm else some o

/-- A timer firing: the clock stands at its due time, a one-shot timer leaves
the table and a periodic one is registered again one period later, then the
callback runs. -/
def Page.fire (tm : Timer) (p : Page) : Page :=
  let rearmed : Page :=
    { p with
      now := tm.due
      timers :=
        match tm.period with
        | none => p.timers.erase tm
        | some ms => p.timers.erase tm ++ [{ tm with due := tm.due + ms }] }
  match tm.callback with
  | .breathingCycle => breathingCycle rearmed
  | .breathe node => breathe node rearmed

/-- The page's timers running until clock time `t`: as long as the earliest
pending timer is due by `t`, it fires. -/
def Page.runUntil (t : Nat) : Nat → Page → Page
  | 0, p => p
  | fuel + 1, p =>
    match nextTimer p.timers with
    | none => p
    | some tm => if tm.due ≤ t then Page.runUntil t fuel (p.fire tm) else p

/-! ## Viewport parallax (lines 54-90) -/

/-- The observer callback of lines 62-82 for one entry. The literals `0.3`
and `0.1` are the rationals 3/10 and 1/10. -/
def scrollEntry (p : Page) (entry : Entry) : Page :=
  let element := entry.target
  let ratio := entry.intersectionRatio
  if (p.dom element).classList.contains "glass" then
    let translateY := (1 - ratio) * 20
    let opacity := max (3 / 10) ratio
    let published := (p.writeStyle element (.scrollTranslate translateY)).writeStyle
      element (.scrollOpacity opacity)
    if ratio > 1 / 10 then
      (published.writeStyle element
        (.transform "translateY(var(--scroll-translate, 0px))")).writeStyle element
        (.opacity "var(--scroll-opacity, 1)")
    else published
  else p

/-- The observer callback of lines 62-82. -/
def scrollCallback (entries : List Entry) (p : Page) : Page :=
  entries.foldl scrollEntry p

/-- `setupScrollAnimations` (lines 54-90). -/
def setupScrollAnimations (p : Page) : Page :=
  if !p.hasIntersectionObserver then p
  else
    let scrollObserver : Observer :=
      (p.querySelectorAll "glass").foldl (fun o el => o.observe el)
        { kind := .scroll, watched := [] }
    { p with motion := { p.motion with
        observers := mapSet "scroll" scrollObserver p.motion.observers } }

/-! ## Pointer interaction (lines 93-126) -/

/-- `setupHoverEffects`: the two `document.addEventListener` calls. -/
def setupHoverEffects (p : Page) : Page :=
  { p with
    listeners := p.listeners ++
      [("mousemove", .throttledTilt 16), ("mouseleave", .resetTransforms)] }

/-! ## Progress reveal (lines 129-164) -/

/-- `progressObserver.unobserve(bar)` inside the callback: the observer is the
one stored under the key `progress`. -/
def unobserveProgress (bar : Node) (m : MotionState) : MotionState :=
  { m with observers := mapModify "progress" (fun o => o.unobserve bar) m.observers }

/-- The observer callback of lines 133-150 for one entry. -/
def progressEntry (p : Page) (entry : Entry) : Page :=
  if entry.isIntersecting then
    let bar := entry.target
    let targetWidth := orElse (orElse (p.dom bar).datasetWidth (p.dom bar).styleWidth) "0%"
    let reset := (p.writeStyle bar (.width "0%")).writeStyle bar (.transition "none")
    { reset with
      frames := reset.frames ++ [{ bar := bar, targetWidth := targetWidth }]
      frameLog := reset.frameLog ++ [bar]
      motion := unobserveProgress bar reset.motion }
  else p

/-- The observer callback of lines 133-150. -/
def progressCallback (entries : List Entry) (p : Page) : Page :=
  entries.foldl progressEntry p

/-- The animation-frame callback of lines 143-146. -/
def runFrame (p : Page) (f : Frame) : Page :=
  (p.writeStyle f.bar
    (.transition "width 2.5s cubic-bezier(0.2, 0.8, 0.2, 1)")).writeStyle f.bar
    (.width f.targetWidth)

/-- An animation frame of the host: every queued callback runs, oldest first. -/
def Page.animationFrame (p : Page) : Page :=
  p.frames.foldl runFrame { p with frames := [] }

/-- Lines 155-161 for one bar: the target width is stored in `data-width` when
the attribute is not set. -/
def storeTarget (p : Page) (bar : Node) : Page :=
  if (p.dom bar).datasetWidth = "" then
    { p with
      dom := Function.update p.dom bar
        { p.dom bar with datasetWidth := orElse (p.dom bar).styleWidth "0%" } }
  else p

/-- `setupProgressBars` (lines 129-164). Line 133 evaluates
`new IntersectionObserver(...)` without a test: where the host has no such
constructor the evaluation throws a `ReferenceError`, before anything is
changed. -/
def setupProgressBars (p : Page) : Except String Page :=
  let progressBars := p.querySelectorAll "glass-progress-fill"
  if !p.hasIntersectionObserver then
    .error "ReferenceError: IntersectionObserver is not defined"
  else
    let stored := progressBars.foldl storeTarget p
    let progressObserver : Observer :=
      progressBars.foldl (fun o bar => o.observe bar) { kind := .progress, watched := [] }
    .ok { stored with motion := { stored.motion with
        observers := mapSet "progress" progressObserver stored.motion.observers } }

/-- The page `setupProgressBars` leaves behind where the host has an
`IntersectionObserver` (the `else` part of `setupProgressBars`). -/
def initMotionProgress (p : Page) : Page :=
  let progressBars := p.querySelectorAll "glass-progress-fill"
  let stored := progressBars.foldl storeTarget p
  let progressObserver : Observer :=
    progressBars.foldl (fun o bar => o.observe bar) { kind := .progress, watched := [] }
  { stored with motion := { stored.motion with
      observers := mapSet "progress" progressObserver stored.motion.observers } }

/-! ## Initialisation (lines 12-19) -/

/-- How a call ended: the page it left behind and the exception it threw to
its caller, if any. -/
structure Completion where
  page : Page
  thrown : Option String

/-- `initMotion` (lines 12-19). -/
def initMotion (p : Page) : Completion :=
  let p1 := setupBreathingCycle p
  let p2 := setupScrollAnimations p1
  let p3 := setupHoverEffects p2
  match setupProgressBars p3 with
  | .error e => { page := p3, thrown := some e }
  | .ok p4 =>
    { page := { p4 with
        console := p4.console ++ ["🌊 Liquid Glass Motion System initialized"] }
      thrown := none }

/-! ## What the host delivers to the progress handle -/

/-- The host handing a batch of notifications to the observer stored under
`progress`: only entries whose target the observer watches when the batch is
delivered reach the callback; without such an observer nothing is delivered. -/
def deliverProgress (batch : List Entry) (p : Page) : Page :=
  match mapGet "progress" p.motion.observers with
  | none => p
  | some o => progressCallback (batch.filter (fun e => o.watched.contains e.target)) p

/-- What can happen to the progress bars after setup: the host delivers a
batch of notifications, or renders an animation frame. -/
inductive ProgressEvent
  | batch (entries : List Entry)
  | frame

/-- One event. -/
def ProgressEvent.apply (p : Page) : ProgressEvent → Page
  | .batch entries => deliverProgress entries p
  | .frame => p.animationFrame

/-- `LiquidGlass.addGlassElement` (lines 259-267). -/
def addGlassElement (element : Node) (p : Page) : Page :=
  if (p.dom element).classList.contains "glass" then
    let added : MotionState :=
      { p.motion with breathingNodes := setAdd element p.motion.breathingNodes }
    if mapHas "scroll" added.observers then
      { p with motion := { added with
          observers := mapModify "scroll" (fun o => o.observe element) added.observers } }
    else { p with motion := added }
  else p

/-- `LiquidGlass.removeGlassElement` (lines 270-276). -/
def removeGlassElement (element : Node) (m : MotionState) : MotionState :=
  { m with
    breathingNodes := setDelete element m.breathingNodes
    observers := m.observers.map (fun e => (e.1, e.2.unobserve element)) }

/-- A reference to a `Set` object: the one the registry holds (created on
line 6), or the `k`-th set a caller of the API made itself. -/
inductive SetRef
  | registry
  | own (k : Nat)
deriving DecidableEq, Repr

/-- A reference to a `Map` object: the one the registry holds (created on
line 7), or the `k`-th map a caller of the API made itself. -/
inductive MapRef
  | registry
  | own (k : Nat)
deriving DecidableEq, Repr

/-- The object `getState` returns: a fresh object with the four properties of
`MotionState`. A property whose value is an object holds a reference to it. -/
structure StateCopy where
  isBreathing : Bool
  breathingNodes : SetRef
  observers : MapRef
  rafId : Option Nat
deriving DecidableEq, Repr

/-- `LiquidGlass.getState` (line 286): the spread `{ ...MotionState }` copies
each property value; for `breathingNodes` and `observers` that value is the
reference to the registry's own `Set` and `Map`. -/
def getState (m : MotionState) : StateCopy :=
  { isBreathing := m.isBreathing, breathingNodes := .registry,
    observers := .registry, rafId := m.rafId }

/-- What a caller of `getState` holds: the returned object, the sets and maps
it made itself, and (shared with the script) the registry. -/
structure CallerView where
  copy : StateCopy
  ownSets : Nat → List Node
  ownMaps : Nat → List (String × Observer)
  registry : MotionState

/-- What a caller can do to the returned object: assign one of its four
properties, or call a mutating method on the `Set` / `Map` a property refers
to. -/
inductive CopyOp
  | assignIsBreathing (b : Bool)
  | assignBreathingNodes (r : SetRef)
  | assignObservers (r : MapRef)
  | assignRafId (h : Option Nat)
  | nodesAdd (x : Node)
  | nodesDelete (x : Node)
  | nodesClear
  | observersSet (key : String) (o : Observer)
  | observersDelete (key : String)
  | observersClear
deriving DecidableEq

/-- The `Set` a reference points to, after `f` acted on it. -/
def CallerView.updateSet (r : SetRef) (f : List Node → List Node) (v : CallerView) :
    CallerView :=
  match r with
  | .registry => { v with registry := { v.registry with
      breathingNodes := f v.registry.breathingNodes } }
  | .own k => { v with ownSets := Function.update v.ownSets k (f (v.ownSets k)) }

/-- The `Map` a reference points to, after `f` acted on it. -/
def CallerView.updateMap (r : MapRef)
    (f : List (String × Observer) → List (String × Observer)) (v : CallerView) :
    CallerView :=
  match r with
  | .registry => { v with registry := { v.registry with observers := f v.registry.observers } }
  | .own k => { v with ownMaps := Function.update v.ownMaps k (f (v.ownMaps k)) }

/-- One operation of the caller on the returned object. -/
def CallerView.perform (v : CallerView) : CopyOp → CallerView
  | .assignIsBreathing b => { v with copy := { v.copy with isBreathing := b } }
  | .assignBreathingNodes r => { v with copy := { v.copy with breathingNodes := r } }
  | .assignObservers r => { v with copy := { v.copy with observers := r } }
  | .assignRafId h => { v with copy := { v.copy with rafId := h } }
  | .nodesAdd x => v.updateSet v.copy.breathingNodes (setAdd x)
  | .nodesDelete x => v.updateSet v.copy.breathingNodes (setDelete x)
  | .nodesClear => v.updateSet v.copy.breathingNodes (fun _ => [])
  | .observersSet key o => v.updateMap v.copy.observers (mapSet key o)
  | .observersDelete key =>
    v.updateMap v.copy.observers (fun m => m.filter (fun e => e.1 != key))
  | .observersClear => v.updateMap v.copy.observers (fun _ => [])

/-- A caller right after `LiquidGlass.getState()` returned. -/
def CallerView.afterGetState (m : MotionState) (ownSets : Nat → List Node)
    (ownMaps : Nat → List (String × Observer)) : CallerView :=
  { copy := getState m, ownSets := ownSets, ownMaps := ownMaps, registry := m }

/-- A sample document: elements 1, 2 and 3 carry the class `glass`, element 4
is a progress fill whose stored target width is `80%`, element 5 is a plain
element. -/
def sampleDom (n : Node) : Element :=
  { classList :=
      if n = 1 ∨ n = 2 ∨ n = 3 then ["glass"]
      else if n = 4 then ["glass-progress-fill"] else []
    datasetWidth := if n = 4 then "80%" else ""
    styleWidth := ""
    styleTransition := ""
    styleTransform := ""
    styleOpacity := ""
    scrollTranslate := none
    scrollOpacity := none }

/-- Sample values of `Math.random()`: 1/4, 1/2, 3/4, 1/4, ... -/
def sampleRandom (k : Nat) : UnitSample :=
  { num := k % 3 + 1, den := 4, lt := by omega }

/-- The sample page at the start of the script. -/
def samplePage (hasIntersectionObserver : Bool) : Page :=
  Page.initial hasIntersectionObserver [1, 2, 3, 4, 5] sampleDom sampleRandom

/-- The timers one run of `breathingCycle` registers for the given nodes, the
first of them under the handle `firstId` and with the `firstCall`-th value of
`Math.random()`. -/
def breathTimers (random : Nat → UnitSample) (now : Nat) :
    Nat → Nat → List Node → List Timer
  | _, _, [] => []
  | firstId, firstCall, node :: rest =>
    { id := firstId, due := now + (random firstCall).jitterMs, period := none,
      callback := .breathe node } ::
      breathTimers random now (firstId + 1) (firstCall + 1) rest

/-- The shape of the page while the breathing cycle runs, `k + 1` runs of
`breathingCycle` having happened, the last of them no later than `horizon`:
the phase is that of an odd number of toggles exactly when `k` is even, the
breathing set is `nodes`, the timer table holds the periodic timer, due at
`6500 * (k + 1)`, and class updates of the current cycle, each due less than
200 ms after the cycle's start; and every node either carries the class
`is-breathing` exactly when the phase says so or still has its update
pending. -/
def Page.Breathing (nodes : List Node) (horizon k : Nat) (p : Page) : Prop :=
  p.cycles = k + 1 ∧ p.motion.isBreathing = (k % 2 == 0) ∧
  p.motion.breathingNodes = nodes ∧ 6500 * k ≤ horizon ∧
  (∃ id updates,
    p.timers.Perm
      ({ id := id, due := 6500 * (k + 1), period := some 6500,
         callback := .breathingCycle } :: updates) ∧
    ∀ b ∈ updates, b.period = none ∧ 6500 * k ≤ b.due ∧ b.due < 6500 * k + 200 ∧
      ∃ x ∈ nodes, b.callback = .breathe x) ∧
  (∀ x ∈ nodes,
    (p.dom x).classList.contains "is-breathing" = p.motion.isBreathing ∨
      ∃ b ∈ p.timers, b.callback = .breathe x)

/-- An upper bound on the number of timers that still fire up to `horizon`:
the pending class updates, and for each run of `breathingCycle` still to come
the run itself and one update per node. -/
def Page.pendingWork (nodes : List Node) (horizon : Nat) (p : Page) : Nat :=
  (p.timers.length - 1) + (horizon / 6500 + 1 - p.cycles) * (nodes.length + 1)

/-- The page right after `setupBreathingCycle` ran at the start of the
script, the clock standing at 0. -/
def breathingStart (hasIntersectionObserver : Bool) (elements : List Node)
    (dom : Node → Element) (random : Nat → UnitSample) : Page :=
  setupBreathingCycle (Page.initial hasIntersectionObserver elements dom random)

/-! ## Properties -/

section Timing

variable {α : Type}

/-- C1 (as amended). With interval 16 and a clock that reads `e + t` at
virtual time `t`, `e > 16`, the calls at t = 0, 5, 10 and 20 make the action
run three times: at t = 0 with the first call's arguments, at t = 16 with the
arguments of the call at 10, and at t = 32 with the arguments of the call at
20. The calls at 5 and 10 cause no run at their own time. -/
theorem throttle_trace (e : Int) (he : 16 < e) (a b c d : α) :
    throttleRuns 16 [(e, a), (e + 5, b), (e + 10, c), (e + 20, d)] =
      [(e, a), (e + 16, c), (e + 32, d)] := by
  have s1 : (throttle 16 : Throttled α).call e a = ⟨16, none, e, [], 0, [(e, a)]⟩ := by
    simp [Throttled.call, throttle, he]
  have s2 : (⟨16, none, e, [], 0, [(e, a)]⟩ : Throttled α).call (e + 5) b =
      ⟨16, some 0, e, [⟨0, e + 16, b⟩], 1, [(e, a)]⟩ := by
    simp [Throttled.call, clearTimeout, newTimeout]
    omega
  have s3 : (⟨16, some 0, e, [⟨0, e + 16, b⟩], 1, [(e, a)]⟩ : Throttled α).call (e + 10) c =
      ⟨16, some 1, e, [⟨1, e + 16, c⟩], 2, [(e, a)]⟩ := by
    simp [Throttled.call, clearTimeout, newTimeout]
    omega
  have s4 : Throttled.advance (some (e + 20)) 1
      (⟨16, some 1, e, [⟨1, e + 16, c⟩], 2, [(e, a)]⟩ : Throttled α) =
      ⟨16, some 1, e + 16, [], 2, [(e, a), (e + 16, c)]⟩ := by
    simp [Throttled.advance, Throttled.fire, nextDue]
  have s5 : (⟨16, some 1, e + 16, [], 2, [(e, a), (e + 16, c)]⟩ :
        Throttled α).call (e + 20) d =
      ⟨16, some 2, e + 16, [⟨2, e + 32, d⟩], 3, [(e, a), (e + 16, c)]⟩ := by
    have h : ¬ (16 : Int) < e + 20 - (e + 16) := by omega
    simp [Throttled.call, clearTimeout, newTimeout, h]
    omega
  have s6 : Throttled.advance none 1
      (⟨16, some 2, e + 16, [⟨2, e + 32, d⟩], 3, [(e, a), (e + 16, c)]⟩ : Throttled α) =
      ⟨16, some 2, e + 32, [], 3, [(e, a), (e + 16, c), (e + 32, d)]⟩ := by
    simp [Throttled.advance, Throttled.fire, nextDue]
  have a0 : ∀ (l : Option Int) (s : Throttled α), Throttled.advance l 0 s = s :=
    fun _ _ => rfl
  have a1 : ∀ (t : Int) (s : Throttled α) (tm : Timeout α), s.pending = [tm] →
      t < tm.due → Throttled.advance (some t) 1 s = s := by
    intro t s tm hp ht
    have : ¬ tm.due ≤ t := by omega
    simp [Throttled.advance, hp, this, nextDue]
  unfold throttleRuns
  simp only [Throttled.drive]
  rw [show (throttle 16 : Throttled α).pending.length = 0 from rfl, a0, s1]
  simp only [List.length_nil, a0]
  rw [s2]
  simp only [List.length_singleton]
  rw [a1 (e + 10) _ _ rfl (by simp), s3]
  simp only [List.length_singleton]
  rw [s4, s5]
  simp only [List.length_singleton]
  rw [s6]

/-- Witness for C1 (as amended): the clock reads 1000 at the first call. -/
theorem throttle_trace_witness :
    (16 : Int) < 1000 ∧
    throttleRuns 16 [((1000 : Int), "m0"), (1000 + 5, "m5"), (1000 + 10, "m10"),
        (1000 + 20, "m20")] =
      [(1000, "m0"), (1000 + 16, "m10"), (1000 + 32, "m20")] :=
  ⟨by decide, throttle_trace 1000 (by decide) "m0" "m5" "m10" "m20"⟩

/-- C1 fails as stated: with interval 16 and calls at t = 0, 5, 10, 20 the
action does not run at t = 0 and t = 16 only. When the clock reads 1000 at the
first call the runs are at 1000, 1016 and 1032 (three runs, the last one
caused by the call at t = 20); when the clock reads 0 at the first call the
runs are at 16 and 32 (none at t = 0). -/
theorem throttle_calls_give_three_runs :
    (throttleRuns 16 [((1000 : Int), 0), (1005, 5), (1010, 10), (1020, 20)]).map Prod.fst
      ≠ [1000, 1016] ∧
    throttleRuns 16 [((1000 : Int), 0), (1005, 5), (1010, 10), (1020, 20)] =
      [(1000, 0), (1016, 10), (1032, 20)] ∧
    (throttleRuns 16 [((0 : Int), 0), (5, 5), (10, 10), (20, 20)]).map Prod.fst
      ≠ [0, 16] ∧
    throttleRuns 16 [((0 : Int), 0), (5, 5), (10, 10), (20, 20)] =
      [(16, 10), (32, 20)] := by
  decide

end Timing

section Initialisation

theorem scheduleBreath_fold (l : List Node) :
    ∀ p : Page,
      (l.foldl scheduleBreath p).timers =
        p.timers ++ breathTimers p.random p.now p.nextTimerId p.randomCalls l ∧
      (l.foldl scheduleBreath p).dom = p.dom ∧
      (l.foldl scheduleBreath p).motion = p.motion ∧
      (l.foldl scheduleBreath p).now = p.now ∧
      (l.foldl scheduleBreath p).cycles = p.cycles ∧
      (l.foldl scheduleBreath p).random = p.random ∧
      (l.foldl scheduleBreath p).randomCalls = p.randomCalls + l.length ∧
      (l.foldl scheduleBreath p).nextTimerId = p.nextTimerId + l.length ∧
      (l.foldl scheduleBreath p).frames = p.frames ∧
      (l.foldl scheduleBreath p).styleLog = p.styleLog ∧
      (l.foldl scheduleBreath p).frameLog = p.frameLog ∧
      (l.foldl scheduleBreath p).elements = p.elements ∧
      (l.foldl scheduleBreath p).listeners = p.listeners ∧
      (l.foldl scheduleBreath p).console = p.console ∧
      (l.foldl scheduleBreath p).hasIntersectionObserver = p.hasIntersectionObserver := by
  induction l with
  | nil => intro p; simp [breathTimers]
  | cons node rest ih =>
    intro p
    obtain ⟨h1, h2, h3, h4, h5, h6, h7, h8, h9, h10, h11, h12, h13, h14, h15⟩ :=
      ih (scheduleBreath p node)
    simp only [List.foldl_cons]
    refine ⟨?_, h2, h3, h4, h5, h6, ?_, ?_, h9, h10, h11, h12, h13, h14, h15⟩
    · rw [h1]
      simp [scheduleBreath, breathTimers]
    · rw [h7]
      simp only [scheduleBreath, List.length_cons]
      omega
    · rw [h8]
      simp only [scheduleBreath, List.length_cons]
      omega

theorem scheduleBreath_fold_flag (b : Bool) (l : List Node) :
    ∀ p : Page,
      l.foldl scheduleBreath { p with hasIntersectionObserver := b } =
        { l.foldl scheduleBreath p with hasIntersectionObserver := b } := by
  induction l with
  | nil => intro p; rfl
  | cons node rest ih =>
    intro p
    simp only [List.foldl_cons]
    rw [← ih]
    rfl

theorem setupBreathingCycle_flag (b : Bool) (p : Page) :
    setupBreathingCycle { p with hasIntersectionObserver := b } =
      { setupBreathingCycle p with hasIntersectionObserver := b } := by
  have h := scheduleBreath_fold_flag b
    (p.querySelectorAll "glass" |>.foldl (fun l node => setAdd node l) p.motion.breathingNodes)
    { p with
      motion := { p.motion with
        isBreathing := !p.motion.isBreathing
        breathingNodes := (p.querySelectorAll "glass").foldl (fun l node => setAdd node l)
          p.motion.breathingNodes }
      cycles := p.cycles + 1 }
  show Page.setInterval .breathingCycle 6500 (List.foldl scheduleBreath _ _) = _
  exact congrArg (Page.setInterval .breathingCycle 6500) h

theorem storeTarget_fold (l : List Node) :
    ∀ p : Page,
      (l.foldl storeTarget p).timers = p.timers ∧
      (l.foldl storeTarget p).motion = p.motion ∧
      (l.foldl storeTarget p).listeners = p.listeners ∧
      (l.foldl storeTarget p).cycles = p.cycles ∧
      (l.foldl storeTarget p).console = p.console ∧
      (l.foldl storeTarget p).frames = p.frames ∧
      (l.foldl storeTarget p).styleLog = p.styleLog ∧
      (l.foldl storeTarget p).frameLog = p.frameLog := by
  induction l with
  | nil => intro p; simp
  | cons node rest ih =>
    intro p
    obtain ⟨h1, h2, h3, h4, h5, h6, h7, h8⟩ := ih (storeTarget p node)
    simp only [List.foldl_cons]
    rw [h1, h2, h3, h4, h5, h6, h7, h8]
    unfold storeTarget
    split <;> simp

/-- C4, the code at an environment without `IntersectionObserver`:
`initMotion` throws a `ReferenceError` to its caller, raised by
`setupProgressBars`, and the console line of line 18 is not written, whereas
with the capability it throws nothing. Up to the throw the claim's other
parts hold: no handle is stored in the registry, and the timers of the
breathing cycle, the breathing set and phase, and the pointer listeners are
those of the run with the capability. -/
theorem initMotion_without_observer_throws (p : Page) :
    (initMotion { p with hasIntersectionObserver := false }).thrown
      = some "ReferenceError: IntersectionObserver is not defined" ∧
    (initMotion { p with hasIntersectionObserver := true }).thrown = none ∧
    (initMotion { p with hasIntersectionObserver := false }).page.console = p.console ∧
    (initMotion { p with hasIntersectionObserver := false }).page.motion.observers
      = p.motion.observers ∧
    (initMotion { p with hasIntersectionObserver := false }).page.timers
      = (initMotion { p with hasIntersectionObserver := true }).page.timers ∧
    (initMotion { p with hasIntersectionObserver := false }).page.motion.breathingNodes
      = (initMotion { p with hasIntersectionObserver := true }).page.motion.breathingNodes ∧
    (initMotion { p with hasIntersectionObserver := false }).page.motion.isBreathing
      = (initMotion { p with hasIntersectionObserver := true }).page.motion.isBreathing ∧
    (initMotion { p with hasIntersectionObserver := false }).page.cycles
      = (initMotion { p with hasIntersectionObserver := true }).page.cycles ∧
    (initMotion { p with hasIntersectionObserver := false }).page.listeners
      = (initMotion { p with hasIntersectionObserver := true }).page.listeners := by
  have hbad : initMotion { p with hasIntersectionObserver := false } =
      { page := setupHoverEffects
          { setupBreathingCycle p with hasIntersectionObserver := false }
        thrown := some "ReferenceError: IntersectionObserver is not defined" } := by
    simp only [initMotion, setupBreathingCycle_flag]
    rfl
  have hgood : initMotion { p with hasIntersectionObserver := true } =
      { page :=
          { initMotionProgress (setupHoverEffects (setupScrollAnimations
              { setupBreathingCycle p with hasIntersectionObserver := true })) with
            console := (initMotionProgress (setupHoverEffects (setupScrollAnimations
              { setupBreathingCycle p with hasIntersectionObserver := true }))).console ++
                ["🌊 Liquid Glass Motion System initialized"] }
        thrown := none } := by
    simp only [initMotion, setupBreathingCycle_flag]
    rfl
  obtain ⟨f1, f2, f3, f4, f5, -, -, -⟩ := storeTarget_fold
    ((setupHoverEffects (setupScrollAnimations
      { setupBreathingCycle p with hasIntersectionObserver := true })).querySelectorAll
        "glass-progress-fill")
    (setupHoverEffects (setupScrollAnimations
      { setupBreathingCycle p with hasIntersectionObserver := true }))
  obtain ⟨-, -, g3, -, -, -, -, -, -, -, -, -, -, g14, -⟩ := scheduleBreath_fold
    ((p.querySelectorAll "glass").foldl (fun l node => setAdd node l) p.motion.breathingNodes)
    { p with
      motion := { p.motion with
        isBreathing := !p.motion.isBreathing
        breathingNodes := (p.querySelectorAll "glass").foldl (fun l node => setAdd node l)
          p.motion.breathingNodes }
      cycles := p.cycles + 1 }
  rw [hbad, hgood]
  refine ⟨rfl, rfl, ?_, ?_, ?_, ?_, ?_, ?_, ?_⟩
  · exact g14
  · have h := congrArg MotionState.observers g3
    exact h
  · simp only [initMotionProgress, f1]
    rfl
  · simp only [initMotionProgress, f2]
    rfl
  · simp only [initMotionProgress, f2]
    rfl
  · simp only [initMotionProgress, f4]
    rfl
  · simp only [initMotionProgress, f3]
    rfl

end Initialisation

section Registry

theorem setAdd_mem (x : Node) (l : List Node) : x ∈ setAdd x l := by
  unfold setAdd
  split <;> simp_all

theorem setAdd_idem (x : Node) (l : List Node) : setAdd x (setAdd x l) = setAdd x l := by
  have h := setAdd_mem x l
  generalize setAdd x l = m at h ⊢
  simp [setAdd, h]

theorem mem_setDelete (x y : Node) (l : List Node) :
    y ∈ setDelete x l ↔ y ∈ l ∧ y ≠ x := by
  simp [setDelete]

theorem setDelete_of_not_mem (x : Node) (l : List Node) (h : x ∉ l) :
    setDelete x l = l := by
  simp only [setDelete, List.filter_eq_self]
  intro y hy
  have : y ≠ x := fun e => h (e ▸ hy)
  simpa using this

theorem mapHas_mapModify (k k2 : String) (g : Observer → Observer)
    (m : List (String × Observer)) : mapHas k2 (mapModify k g m) = mapHas k2 m := by
  induction m with
  | nil => rfl
  | cons e rest ih =>
    simp only [mapHas, mapModify, List.map_cons, List.any_cons] at ih ⊢
    rw [ih]
    by_cases hk : (e.1 == k) = true
    · rw [if_pos hk]
    · rw [if_neg hk]

theorem mapGet_mapModify (k : String) (g : Observer → Observer)
    (m : List (String × Observer)) : mapGet k (mapModify k g m) = (mapGet k m).map g := by
  induction m with
  | nil => rfl
  | cons e rest ih =>
    simp only [mapGet, mapModify, List.map_cons, List.find?_cons] at ih ⊢
    by_cases hk : (e.1 == k) = true
    · rw [if_pos hk]
      simp only [hk]
      rfl
    · rw [if_neg hk]
      have hk2 : (e.1 == k) = false := by simpa using hk
      simp only [hk2]
      exact ih

theorem mapModify_idem (k : String) (g : Observer → Observer) (hg : ∀ o, g (g o) = g o)
    (m : List (String × Observer)) : mapModify k g (mapModify k g m) = mapModify k g m := by
  induction m with
  | nil => rfl
  | cons e rest ih =>
    simp only [mapModify, List.map_cons] at ih ⊢
    rw [ih]
    by_cases hk : (e.1 == k) = true
    · simp only [if_pos hk, hg]
    · simp only [if_neg hk]

theorem mapGet_isSome_of_mapHas (k : String) (m : List (String × Observer))
    (h : mapHas k m = true) : ∃ o, mapGet k m = some o := by
  induction m with
  | nil => simp [mapHas] at h
  | cons e rest ih =>
    simp only [mapGet, List.find?_cons]
    by_cases hk : (e.1 == k) = true
    · exact ⟨e.2, by simp [hk]⟩
    · have hk2 : (e.1 == k) = false := by simpa using hk
      simp only [mapHas, List.any_cons, hk2, Bool.false_or] at h
      simpa [hk2, mapGet] using ih h

theorem addGlassElement_not_glass (p : Page) (x : Node)
    (hg : ¬ (p.dom x).classList.contains "glass" = true) : addGlassElement x p = p := by
  simp only [addGlassElement, if_neg hg]

theorem addGlassElement_scroll (p : Page) (x : Node)
    (hg : (p.dom x).classList.contains "glass" = true)
    (hs : mapHas "scroll" p.motion.observers = true) :
    addGlassElement x p =
      { p with motion := { p.motion with
          breathingNodes := setAdd x p.motion.breathingNodes
          observers := mapModify "scroll" (fun o => o.observe x) p.motion.observers } } := by
  simp only [addGlassElement, if_pos hg, if_pos hs]

theorem addGlassElement_no_scroll (p : Page) (x : Node)
    (hg : (p.dom x).classList.contains "glass" = true)
    (hs : ¬ mapHas "scroll" p.motion.observers = true) :
    addGlassElement x p =
      { p with motion := { p.motion with
          breathingNodes := setAdd x p.motion.breathingNodes } } := by
  simp only [addGlassElement, if_pos hg, if_neg hs]

/-- C7. Calling `addGlassElement(p)` twice leaves the page, and with it the
registry (the breathing set and the watched set of the scroll handle), in
exactly the state one call leaves it in; and when `p` is a participant (it
carries the class `glass`), after the call `p` is in the breathing set and,
when a handle is stored under `scroll`, in that handle's watched set. -/
theorem addGlassElement_idempotent (p : Page) (x : Node) :
    addGlassElement x (addGlassElement x p) = addGlassElement x p ∧
    ((p.dom x).classList.contains "glass" = true →
      x ∈ (addGlassElement x p).motion.breathingNodes ∧
      (mapHas "scroll" p.motion.observers = true →
        ∃ o, mapGet "scroll" (addGlassElement x p).motion.observers = some o ∧
          x ∈ o.watched)) := by
  have hidem : ∀ o : Observer, (o.observe x).observe x = o.observe x := by
    intro o
    simp [Observer.observe, setAdd_idem]
  constructor
  · by_cases hg : (p.dom x).classList.contains "glass" = true
    · by_cases hs : mapHas "scroll" p.motion.observers = true
      · have h1 := addGlassElement_scroll p x hg hs
        have h2 := addGlassElement_scroll (addGlassElement x p) x
          (by rw [h1]; exact hg)
          (by rw [h1]; exact (mapHas_mapModify "scroll" "scroll" _ p.motion.observers).trans hs)
        rw [h2, h1]
        simp only [setAdd_idem, mapModify_idem _ _ hidem]
      · have h1 := addGlassElement_no_scroll p x hg hs
        have h2 := addGlassElement_no_scroll (addGlassElement x p) x
          (by rw [h1]; exact hg) (by rw [h1]; exact hs)
        rw [h2, h1]
        simp only [setAdd_idem]
    · have h1 := addGlassElement_not_glass p x hg
      rw [h1, h1]
  · intro hg
    by_cases hs : mapHas "scroll" p.motion.observers = true
    · rw [addGlassElement_scroll p x hg hs]
      refine ⟨setAdd_mem _ _, fun _ => ?_⟩
      obtain ⟨o, ho⟩ := mapGet_isSome_of_mapHas _ _ hs
      refine ⟨o.observe x, ?_, setAdd_mem x o.watched⟩
      simp only [mapGet_mapModify, ho, Option.map_some']
    · rw [addGlassElement_no_scroll p x hg hs]
      exact ⟨setAdd_mem _ _, fun h => absurd h hs⟩

/-- Witness for C7: element 2 of the sample page carries the class `glass`;
after `addGlassElement` it is in the breathing set and in the watched set of
the scroll handle. -/
theorem addGlassElement_idempotent_witness :
    ((setupScrollAnimations (samplePage true)).dom 2).classList.contains "glass" = true ∧
    2 ∈ (addGlassElement 2 (setupScrollAnimations (samplePage true))).motion.breathingNodes ∧
    ∃ o, mapGet "scroll"
        (addGlassElement 2 (setupScrollAnimations (samplePage true))).motion.observers
          = some o ∧ 2 ∈ o.watched :=
  ⟨by decide,
   ((addGlassElement_idempotent (setupScrollAnimations (samplePage true)) 2).2
      (by decide)).1,
   ((addGlassElement_idempotent (setupScrollAnimations (samplePage true)) 2).2
      (by decide)).2 (by decide)⟩

/-- C8. `removeGlassElement(p)` is a total function of the registry (its body
has no statement that can throw for an element handle). Afterwards `p` is in
neither the breathing set nor the watched set of any stored handle; the
registry keeps its phase, its frame handle and the keys and kinds of its
handles, and every element other than `p` is in the breathing set, or in a
handle's watched set, exactly when it was there before. When `p` was in none
of these sets the registry is unchanged. -/
theorem removeGlassElement_spec (m : MotionState) (x : Node) :
    x ∉ (removeGlassElement x m).breathingNodes ∧
    (∀ e ∈ (removeGlassElement x m).observers, x ∉ e.2.watched) ∧
    (∀ y, y ≠ x →
      (y ∈ (removeGlassElement x m).breathingNodes ↔ y ∈ m.breathingNodes)) ∧
    (removeGlassElement x m).isBreathing = m.isBreathing ∧
    (removeGlassElement x m).rafId = m.rafId ∧
    List.Forall₂
      (fun e e2 => e2.1 = e.1 ∧ e2.2.kind = e.2.kind ∧
        ∀ y, y ≠ x → (y ∈ e2.2.watched ↔ y ∈ e.2.watched))
      m.observers (removeGlassElement x m).observers ∧
    (x ∉ m.breathingNodes → (∀ e ∈ m.observers, x ∉ e.2.watched) →
      removeGlassElement x m = m) := by
  refine ⟨?_, ?_, ?_, rfl, rfl, ?_, ?_⟩
  · simp [removeGlassElement, mem_setDelete]
  · intro e he
    simp only [removeGlassElement, List.mem_map] at he
    obtain ⟨e0, _, rfl⟩ := he
    simp [Observer.unobserve, mem_setDelete]
  · intro y hy
    simp [removeGlassElement, mem_setDelete, hy]
  · simp only [removeGlassElement]
    generalize m.observers = obs
    induction obs with
    | nil => exact List.Forall₂.nil
    | cons e rest ih =>
      refine List.Forall₂.cons ⟨rfl, rfl, ?_⟩ ih
      intro y hy
      simp [Observer.unobserve, mem_setDelete, hy]
  · intro hb ho
    have h1 : setDelete x m.breathingNodes = m.breathingNodes :=
      setDelete_of_not_mem x _ hb
    have h2 : m.observers.map (fun e => (e.1, e.2.unobserve x)) = m.observers := by
      conv_rhs => rw [← List.map_id m.observers]
      apply List.map_congr_left
      intro e he
      have := setDelete_of_not_mem x _ (ho e he)
      simp [Observer.unobserve, this]
    simp only [removeGlassElement, h1, h2]

/-- Witness for C8: element 2 is removed from the registry of the initialised
sample page; element 9, registered nowhere, leaves the registry unchanged. -/
theorem removeGlassElement_spec_witness :
    (removeGlassElement 2 (initMotion (samplePage true)).page.motion).breathingNodes
      = [1, 3] ∧
    removeGlassElement 9 (initMotion (samplePage true)).page.motion
      = (initMotion (samplePage true)).page.motion :=
  ⟨by decide,
   (removeGlassElement_spec (initMotion (samplePage true)).page.motion 9).2.2.2.2.2.2
      (by decide) (by decide)⟩

/-- C9 (as amended). `getState()` returns a shallow copy of the registry: a new
object whose `isBreathing` and `rafId` equal the registry's and whose
`breathingNodes` and `observers` refer to the registry's own `Set` and `Map`.
Assigning any property of the returned object leaves the registry as it was;
`add`, `delete` and `clear` on its `breathingNodes`, and `set`, `delete` and
`clear` on its `observers`, act on the registry's own set and map. -/
theorem getState_shallow_copy (m : MotionState) (ownSets : Nat → List Node)
    (ownMaps : Nat → List (String × Observer)) :
    (getState m).isBreathing = m.isBreathing ∧
    (getState m).rafId = m.rafId ∧
    (getState m).breathingNodes = SetRef.registry ∧
    (getState m).observers = MapRef.registry ∧
    (∀ b, ((CallerView.afterGetState m ownSets ownMaps).perform
      (.assignIsBreathing b)).registry = m) ∧
    (∀ r, ((CallerView.afterGetState m ownSets ownMaps).perform
      (.assignBreathingNodes r)).registry = m) ∧
    (∀ r, ((CallerView.afterGetState m ownSets ownMaps).perform
      (.assignObservers r)).registry = m) ∧
    (∀ h, ((CallerView.afterGetState m ownSets ownMaps).perform
      (.assignRafId h)).registry = m) ∧
    (∀ x, ((CallerView.afterGetState m ownSets ownMaps).perform
      (.nodesAdd x)).registry = { m with breathingNodes := setAdd x m.breathingNodes }) ∧
    (∀ x, ((CallerView.afterGetState m ownSets ownMaps).perform
      (.nodesDelete x)).registry =
        { m with breathingNodes := setDelete x m.breathingNodes }) ∧
    ((CallerView.afterGetState m ownSets ownMaps).perform .nodesClear).registry =
      { m with breathingNodes := [] } ∧
    (∀ k o, ((CallerView.afterGetState m ownSets ownMaps).perform
      (.observersSet k o)).registry = { m with observers := mapSet k o m.observers }) ∧
    (∀ k, ((CallerView.afterGetState m ownSets ownMaps).perform
      (.observersDelete k)).registry =
        { m with observers := m.observers.filter (fun e => e.1 != k) }) ∧
    ((CallerView.afterGetState m ownSets ownMaps).perform .observersClear).registry =
      { m with observers := [] } := by
  refine ⟨rfl, rfl, rfl, rfl, fun _ => rfl, fun _ => rfl, fun _ => rfl, fun _ => rfl,
    fun _ => rfl, fun _ => rfl, rfl, fun _ _ => rfl, fun _ => rfl, rfl⟩

/-- C9 fails as stated: on the initialised sample page the registry's breathing
set is `[1, 2, 3]` and two handles are stored; after a caller clears the
`breathingNodes` set, or the `observers` map, of the object `getState()`
returned, the registry's own set, or map, is empty. -/
theorem getState_copy_not_isolated :
    (initMotion (samplePage true)).page.motion.breathingNodes = [1, 2, 3] ∧
    ((CallerView.afterGetState (initMotion (samplePage true)).page.motion
        (fun _ => []) (fun _ => [])).perform .nodesClear).registry.breathingNodes = [] ∧
    (initMotion (samplePage true)).page.motion.observers.length = 2 ∧
    ((CallerView.afterGetState (initMotion (samplePage true)).page.motion
        (fun _ => []) (fun _ => [])).perform .observersClear).registry.observers = [] := by
  decide

end Registry

section Parallax

end Parallax

section Progress

end Progress


section Breathing

theorem nextTimer_spec (l : List Timer) :
    (nextTimer l = none → l = []) ∧
    (∀ tm, nextTimer l = some tm → tm ∈ l ∧ ∀ b ∈ l, tm.due ≤ b.due) := by
  induction l with
  | nil => exact ⟨fun _ => rfl, fun tm h => by simp [nextTimer] at h⟩
  | cons x rest ih =>
    obtain ⟨ih1, ih2⟩ := ih
    constructor
    · intro h
      simp only [nextTimer] at h
      split at h
      · cases h
      · split at h <;> cases h
    · intro tm h
      simp only [nextTimer] at h
      split at h
      · rename_i hn
        have hr := ih1 hn
        subst hr
        cases h
        simp
      · rename_i o ho
        obtain ⟨hmem, hmin⟩ := ih2 o ho
        split at h
        · rename_i hle
          cases h
          refine ⟨List.mem_cons_self _ _, ?_⟩
          intro b hb
          rcases List.mem_cons.mp hb with rfl | hb
          · exact le_refl _
          · exact le_trans hle (hmin b hb)
        · rename_i hle
          cases h
          refine ⟨List.mem_cons_of_mem _ hmem, ?_⟩
          intro b hb
          rcases List.mem_cons.mp hb with rfl | hb
          · omega
          · exact hmin b hb

theorem breathTimers_spec (random : Nat → UnitSample) (now : Nat) (nodes : List Node) :
    ∀ firstId firstCall,
      (breathTimers random now firstId firstCall nodes).length = nodes.length ∧
      (∀ b ∈ breathTimers random now firstId firstCall nodes,
        b.period = none ∧ (∃ u : UnitSample, b.due = now + u.jitterMs) ∧
          ∃ x ∈ nodes, b.callback = .breathe x) ∧
      (∀ x ∈ nodes, ∃ b ∈ breathTimers random now firstId firstCall nodes,
        b.callback = .breathe x) := by
  induction nodes with
  | nil => intro _ _; simp [breathTimers]
  | cons x rest ih =>
    intro firstId firstCall
    obtain ⟨h1, h2, h3⟩ := ih (firstId + 1) (firstCall + 1)
    refine ⟨by simp [breathTimers, h1], ?_, ?_⟩
    · intro b hb
      simp only [breathTimers, List.mem_cons] at hb
      rcases hb with rfl | hb
      · exact ⟨rfl, ⟨_, rfl⟩, x, List.mem_cons_self _ _, rfl⟩
      · obtain ⟨a1, a2, y, hy, a3⟩ := h2 b hb
        exact ⟨a1, a2, y, List.mem_cons_of_mem _ hy, a3⟩
    · intro y hy
      rcases List.mem_cons.mp hy with rfl | hy
      · exact ⟨⟨firstId, now + (random firstCall).jitterMs, none, .breathe y⟩,
          by simp [breathTimers], rfl⟩
      · obtain ⟨b, hb, hc⟩ := h3 y hy
        exact ⟨b, by simp [breathTimers, hb], hc⟩

theorem jitterMs_lt (u : UnitSample) : u.jitterMs < 200 := by
  unfold UnitSample.jitterMs
  have := u.lt
  apply Nat.div_lt_of_lt_mul
  omega

theorem jitter_range (u : UnitSample) :
    0 ≤ u.jitter ∧ u.jitter < 200 ∧ u.jitterMs = ⌊u.jitter⌋₊ := by
  have hlt := u.lt
  have hden : (0 : ℚ) < (u.den : ℚ) := by
    have : 0 < u.den := by omega
    exact_mod_cast this
  have hnum : (u.num : ℚ) < (u.den : ℚ) := by exact_mod_cast hlt
  unfold UnitSample.jitter UnitSample.jitterMs
  refine ⟨by positivity, ?_, ?_⟩
  · have : (u.num : ℚ) / (u.den : ℚ) < 1 := (div_lt_one hden).mpr hnum
    linarith
  · have h : (u.num : ℚ) / (u.den : ℚ) * 200 = ((u.num * 200 : ℕ) : ℚ) / (u.den : ℚ) := by
      push_cast
      ring
    rw [h, Nat.floor_div_eq_div]

theorem breathingCycle_fields (p : Page) :
    (breathingCycle p).timers = p.timers ++
      breathTimers p.random p.now p.nextTimerId p.randomCalls p.motion.breathingNodes ∧
    (breathingCycle p).dom = p.dom ∧
    (breathingCycle p).motion = { p.motion with isBreathing := !p.motion.isBreathing } ∧
    (breathingCycle p).cycles = p.cycles + 1 ∧
    (breathingCycle p).now = p.now := by
  obtain ⟨g1, g2, g3, g4, g5, -⟩ := scheduleBreath_fold p.motion.breathingNodes
    { p with
      motion := { p.motion with isBreathing := !p.motion.isBreathing }
      cycles := p.cycles + 1 }
  exact ⟨g1, g2, g3, g5, g4⟩

theorem breathe_fields (x : Node) (p : Page) :
    (breathe x p).timers = p.timers ∧ (breathe x p).motion = p.motion ∧
    (breathe x p).cycles = p.cycles ∧
    ((breathe x p).dom x).classList.contains "is-breathing" = p.motion.isBreathing ∧
    (∀ y, y ≠ x → (breathe x p).dom y = p.dom y) := by
  unfold breathe
  cases h : p.motion.isBreathing with
  | true =>
    simp only [if_true]
    refine ⟨rfl, rfl, rfl, ?_, ?_⟩
    · simp only [Page.classAdd, Function.update_same]
      split
      · assumption
      · simp
    · intro y hy
      simp only [Page.classAdd, Function.update_noteq hy]
  | false =>
    simp only [Bool.false_eq_true, if_false]
    refine ⟨rfl, rfl, rfl, ?_, ?_⟩
    · simp [Page.classRemove]
    · intro y hy
      simp only [Page.classRemove, Function.update_noteq hy]

theorem fire_update (nodes : List Node) (t k : Nat) (p : Page) (tm : Timer)
    (hinv : p.Breathing nodes t k) (hmem : tm ∈ p.timers)
    (hper : tm.period = none) (x : Node) (hcb : tm.callback = .breathe x) :
    (p.fire tm).Breathing nodes t k ∧
      (p.fire tm).pendingWork nodes t + 1 ≤ p.pendingWork nodes t := by
  obtain ⟨hc, hb, hn, hk, ⟨id, bs, hperm, hbs⟩, hcls⟩ := hinv
  have hfire : p.fire tm = breathe x { p with now := tm.due, timers := p.timers.erase tm } := by
    simp only [Page.fire, hper, hcb]
  obtain ⟨f1, f2, f3, f4, f5⟩ :=
    breathe_fields x { p with now := tm.due, timers := p.timers.erase tm }
  have htb : tm ∈ bs := by
    rcases List.mem_cons.mp (hperm.subset hmem) with h | h
    · rw [h] at hcb
      cases hcb
    · exact h
  have hne : ¬ ((⟨id, 6500 * (k + 1), some 6500, .breathingCycle⟩ : Timer) == tm) = true := by
    intro h
    have := eq_of_beq h
    rw [← this] at hcb
    cases hcb
  have hperm2 : (p.timers.erase tm).Perm
      ((⟨id, 6500 * (k + 1), some 6500, .breathingCycle⟩ : Timer) :: bs.erase tm) := by
    have := List.Perm.erase tm hperm
    rwa [List.erase_cons_tail hne] at this
  rw [hfire]
  refine ⟨⟨f3.trans hc, by rw [f2]; exact hb, by rw [f2]; exact hn, hk,
    ⟨id, bs.erase tm, by rw [f1]; exact hperm2,
      fun b hb2 => hbs b (List.mem_of_mem_erase hb2)⟩, ?_⟩, ?_⟩
  · intro y hy
    by_cases hyx : y = x
    · left
      rw [hyx, f2]
      exact f4
    · rcases hcls y hy with h | ⟨b, hb2, hbc⟩
      · left
        rw [f5 y hyx, f2]
        exact h
      · right
        refine ⟨b, ?_, hbc⟩
        rw [f1]
        refine (List.mem_erase_of_ne ?_).mpr hb2
        intro hbt
        rw [hbt, hcb] at hbc
        exact hyx (Callback.breathe.inj hbc).symm
  · have hlen : (p.timers.erase tm).length = p.timers.length - 1 :=
      List.length_erase_of_mem hmem
    have hlen2 : p.timers.length = bs.length + 1 := by
      rw [hperm.length_eq]
      rfl
    have hpos : 0 < bs.length := List.length_pos_of_mem htb
    simp only [Page.pendingWork, f1, f3, hlen]
    omega

theorem fire_cycle (nodes : List Node) (t k : Nat) (p : Page) (tm : Timer)
    (hinv : p.Breathing nodes t k) (hmem : tm ∈ p.timers)
    (hmin : ∀ b ∈ p.timers, tm.due ≤ b.due) (hdue : tm.due ≤ t)
    (hcb : tm.callback = .breathingCycle) :
    (p.fire tm).Breathing nodes t (k + 1) ∧
      (p.fire tm).pendingWork nodes t + 1 ≤ p.pendingWork nodes t := by
  obtain ⟨hc, hb, hn, hk, ⟨id, bs, hperm, hbs⟩, hcls⟩ := hinv
  have htm : tm = ⟨id, 6500 * (k + 1), some 6500, .breathingCycle⟩ := by
    rcases List.mem_cons.mp (hperm.subset hmem) with h | h
    · exact h
    · obtain ⟨-, -, -, x, -, hx⟩ := hbs tm h
      rw [hcb] at hx
      cases hx
  have hbs0 : bs = [] := by
    cases bs with
    | nil => rfl
    | cons b rest =>
      exfalso
      obtain ⟨-, -, hhi, -⟩ := hbs b (List.mem_cons_self _ _)
      have hb2 : b ∈ p.timers :=
        hperm.symm.subset (List.mem_cons_of_mem _ (List.mem_cons_self _ _))
      have := hmin b hb2
      rw [htm] at this
      simp only at this
      omega
  subst hbs0
  have htimers : p.timers = [tm] := by
    rw [htm]
    exact List.perm_singleton.mp hperm
  have hfire : p.fire tm = breathingCycle
      { p with now := tm.due, timers := [{ tm with due := tm.due + 6500 }] } := by
    have hp : tm.period = some 6500 := by rw [htm]
    simp only [Page.fire, hp, hcb, htimers, List.erase_cons_head, List.nil_append]
  obtain ⟨c1, c2, c3, c4, -⟩ := breathingCycle_fields
    { p with now := tm.due, timers := [{ tm with due := tm.due + 6500 }] }
  obtain ⟨t1, t2, t3⟩ := breathTimers_spec p.random tm.due nodes p.nextTimerId p.randomCalls
  have hdue2 : tm.due = 6500 * (k + 1) := by rw [htm]
  simp only [hn] at c1
  have hlen : (p.fire tm).timers.length = 1 + nodes.length := by
    rw [hfire, c1]
    simp [t1, Nat.add_comm]
  have hcyc : (p.fire tm).cycles = k + 1 + 1 := by
    rw [hfire, c4]
    simp only
    omega
  refine ⟨?_, ?_⟩
  swap
  · simp only [Page.pendingWork, hlen, hcyc, htimers, hc, List.length_singleton]
    have hq : k + 1 ≤ t / 6500 := by
      rw [Nat.le_div_iff_mul_le (by norm_num)]
      omega
    obtain ⟨m, hm⟩ : ∃ m, t / 6500 + 1 - (k + 1) = m + 1 := ⟨t / 6500 - (k + 1), by omega⟩
    have hm2 : t / 6500 + 1 - (k + 1 + 1) = m := by omega
    rw [hm, hm2, Nat.succ_mul]
    omega
  rw [hfire]
  refine ⟨by rw [c4]; simp only; omega, ?_, by rw [c3]; exact hn, by omega,
    ⟨id, breathTimers p.random tm.due p.nextTimerId p.randomCalls nodes, ?_, ?_⟩, ?_⟩
  · rw [c3]
    simp only [hb]
    have h2 : (k + 1) % 2 = 0 ∨ (k + 1) % 2 = 1 := by omega
    rcases h2 with h | h
    · have h3 : k % 2 = 1 := by omega
      simp [h, h3]
    · have h3 : k % 2 = 0 := by omega
      simp [h, h3]
  · rw [c1, htm]
    simp only [List.singleton_append]
    have : 6500 * (k + 1) + 6500 = 6500 * (k + 1 + 1) := by omega
    rw [this]
  · intro b hb2
    obtain ⟨a1, ⟨u, a2⟩, a3⟩ := t2 b hb2
    have := jitterMs_lt u
    exact ⟨a1, by omega, by omega, a3⟩
  · intro x hx
    right
    obtain ⟨b, hb2, hbc⟩ := t3 x hx
    exact ⟨b, by rw [c1]; exact List.mem_append_right _ hb2, hbc⟩

theorem runUntil_settles (nodes : List Node) (t : Nat) :
    ∀ (fuel : Nat) (p : Page) (k : Nat), p.Breathing nodes t k →
      p.pendingWork nodes t ≤ fuel →
      ∃ k2, (p.runUntil t fuel).Breathing nodes t k2 ∧
        ∀ tm ∈ (p.runUntil t fuel).timers, t < tm.due := by
  intro fuel
  induction fuel with
  | zero =>
    intro p k hinv hwork
    refine ⟨k, hinv, ?_⟩
    obtain ⟨hc, -, -, -, ⟨id, bs, hperm, -⟩, -⟩ := hinv
    have hlen : p.timers.length = bs.length + 1 := by
      rw [hperm.length_eq]
      rfl
    simp only [Page.pendingWork, hc, hlen] at hwork
    have h1 : bs.length = 0 := by omega
    have h2 : (t / 6500 + 1 - (k + 1)) * (nodes.length + 1) = 0 := by omega
    have h3 : t / 6500 + 1 - (k + 1) = 0 := by
      rcases Nat.mul_eq_zero.mp h2 with h | h
      · exact h
      · omega
    have hbs : bs = [] := List.length_eq_zero.mp h1
    subst hbs
    intro tm htm
    have := hperm.subset htm
    simp only [List.mem_singleton] at this
    show t < tm.due
    rw [this]
    simp only
    omega
  | succ fuel ih =>
    intro p k hinv hwork
    cases hnext : nextTimer p.timers with
    | none =>
      have hrun : p.runUntil t (fuel + 1) = p := by simp [Page.runUntil, hnext]
      rw [hrun]
      refine ⟨k, hinv, ?_⟩
      rw [(nextTimer_spec p.timers).1 hnext]
      intro tm htm
      cases htm
    | some tm =>
      obtain ⟨hmem, hmin⟩ := (nextTimer_spec p.timers).2 tm hnext
      by_cases hdue : tm.due ≤ t
      · have hrun : p.runUntil t (fuel + 1) = (p.fire tm).runUntil t fuel := by
          simp [Page.runUntil, hnext, hdue]
        rw [hrun]
        cases hcb : tm.callback with
        | breathingCycle =>
          obtain ⟨hinv2, hwork2⟩ := fire_cycle nodes t k p tm hinv hmem hmin hdue hcb
          exact ih (p.fire tm) (k + 1) hinv2 (by omega)
        | breathe x =>
          have hper : tm.period = none := by
            obtain ⟨-, -, -, -, ⟨id, bs, hperm, hbs⟩, -⟩ := hinv
            rcases List.mem_cons.mp (hperm.subset hmem) with h | h
            · rw [h] at hcb
              cases hcb
            · exact (hbs tm h).1
          obtain ⟨hinv2, hwork2⟩ := fire_update nodes t k p tm hinv hmem hper x hcb
          exact ih (p.fire tm) k hinv2 (by omega)
      · have hrun : p.runUntil t (fuel + 1) = p := by
          simp [Page.runUntil, hnext, hdue]
        rw [hrun]
        refine ⟨k, hinv, ?_⟩
        intro b hb
        have := hmin b hb
        omega

theorem mem_setAdd_fold (l : List Node) :
    ∀ (init : List Node) (x : Node),
      x ∈ l.foldl (fun acc node => setAdd node acc) init ↔ x ∈ l ∨ x ∈ init := by
  induction l with
  | nil => intro init x; simp
  | cons y rest ih =>
    intro init x
    simp only [List.foldl_cons]
    rw [ih]
    simp only [setAdd, List.mem_cons]
    split
    · rename_i hy
      constructor
      · rintro (h | h)
        · exact Or.inl (Or.inr h)
        · exact Or.inr h
      · rintro ((h | h) | h)
        · exact Or.inr (h ▸ hy)
        · exact Or.inl h
        · exact Or.inr h
    · simp only [List.mem_append, List.mem_singleton]
      tauto

theorem breathingStart_shape (hasIntersectionObserver : Bool) (elements : List Node)
    (dom : Node → Element) (random : Nat → UnitSample) (t : Nat) :
    (∀ x, x ∈ (breathingStart hasIntersectionObserver elements dom random).motion.breathingNodes
      ↔ x ∈ elements ∧ (dom x).classList.contains "glass" = true) ∧
    (breathingStart hasIntersectionObserver elements dom random).Breathing
      (breathingStart hasIntersectionObserver elements dom random).motion.breathingNodes t 0 ∧
    (breathingStart hasIntersectionObserver elements dom random).pendingWork
      (breathingStart hasIntersectionObserver elements dom random).motion.breathingNodes t
      = (breathingStart hasIntersectionObserver elements dom random).motion.breathingNodes.length
        + t / 6500 *
          ((breathingStart hasIntersectionObserver elements dom random).motion.breathingNodes.length
            + 1) := by
  obtain ⟨c1, c2, c3, c4, c5⟩ := breathingCycle_fields
    { Page.initial hasIntersectionObserver elements dom random with
      motion := { (Page.initial hasIntersectionObserver elements dom random).motion with
        breathingNodes :=
          ((Page.initial hasIntersectionObserver elements dom random).querySelectorAll
            "glass").foldl (fun l node => setAdd node l)
            (Page.initial hasIntersectionObserver elements dom random).motion.breathingNodes } }
  generalize hnodes :
    ((Page.initial hasIntersectionObserver elements dom random).querySelectorAll
      "glass").foldl (fun l node => setAdd node l)
      (Page.initial hasIntersectionObserver elements dom random).motion.breathingNodes
      = nodes at c1 c2 c3 c4 c5
  have hstart : breathingStart hasIntersectionObserver elements dom random =
      (breathingCycle
        { Page.initial hasIntersectionObserver elements dom random with
          motion := { (Page.initial hasIntersectionObserver elements dom random).motion with
            breathingNodes := nodes } }).setInterval .breathingCycle 6500 := by
    rw [← hnodes]
    rfl
  have hmotion : (breathingStart hasIntersectionObserver elements dom random).motion =
      { isBreathing := true, breathingNodes := nodes, observers := [], rafId := none } := by
    rw [hstart]
    exact c3
  obtain ⟨iid, htimers⟩ : ∃ iid,
      (breathingStart hasIntersectionObserver elements dom random).timers =
        breathTimers random 0 0 0 nodes ++ [⟨iid, 6500, some 6500, .breathingCycle⟩] := by
    refine ⟨(breathingCycle
      { Page.initial hasIntersectionObserver elements dom random with
        motion := { (Page.initial hasIntersectionObserver elements dom random).motion with
          breathingNodes := nodes } }).nextTimerId, ?_⟩
    rw [hstart]
    simp only [Page.setInterval, c1, c5]
    simp [Page.initial]
  have hcycles : (breathingStart hasIntersectionObserver elements dom random).cycles = 1 := by
    rw [hstart]
    exact c4
  obtain ⟨t1, t2, t3⟩ := breathTimers_spec random 0 nodes 0 0
  rw [hmotion]
  simp only
  refine ⟨?_, ⟨hcycles, by rw [hmotion]; rfl, by rw [hmotion], Nat.zero_le _,
    ⟨iid, breathTimers random 0 0 0 nodes, ?_, ?_⟩, ?_⟩, ?_⟩
  · intro x
    rw [← hnodes, mem_setAdd_fold]
    simp [Page.querySelectorAll, Page.initial, MotionState.initial]
  · rw [htimers]
    exact List.perm_append_singleton _ _
  · intro b hb
    obtain ⟨a1, ⟨u, a2⟩, a3⟩ := t2 b hb
    have := jitterMs_lt u
    exact ⟨a1, by omega, by omega, a3⟩
  · intro x hx
    right
    obtain ⟨b, hb, hbc⟩ := t3 x hx
    exact ⟨b, by rw [htimers]; exact List.mem_append_left _ hb, hbc⟩
  · simp only [Page.pendingWork, htimers, hcycles, List.length_append, List.length_singleton, t1,
      Nat.add_sub_cancel]

/-- C10. The breathing cycle starts from the resting phase and, with
`setupBreathingCycle` run at t = 0 and nothing but the page's timers acting
afterwards, for every `n` and every time `t` with
`6500 * n <= t < 6500 * (n + 1)` (and enough fuel for the timers due by `t`):
`breathingCycle` has run exactly `n + 1` times, `isBreathing` is true exactly
when `n` is even, the breathing set is the document's `glass` elements, and no
timer due by `t` is left. When moreover `6500 * n + 200 <= t`, every element of
the breathing set carries the class `is-breathing` exactly when `isBreathing`
is true. Each run of `breathingCycle` toggles the phase once and registers,
for every element of the breathing set, one class update due
`Math.random() * 200` (in whole milliseconds) from the run, and that delay is
at least 0 and less than 200. -/
theorem breathing_cycle_phases (hasIntersectionObserver : Bool) (elements : List Node)
    (dom : Node → Element) (random : Nat → UnitSample) (n t fuel : Nat)
    (hlo : 6500 * n ≤ t) (hhi : t < 6500 * (n + 1))
    (hfuel : (n + 1) *
      ((breathingStart hasIntersectionObserver elements dom random).motion.breathingNodes.length
        + 1) ≤ fuel) :
    (Page.initial hasIntersectionObserver elements dom random).motion.isBreathing = false ∧
    ((breathingStart hasIntersectionObserver elements dom random).runUntil t fuel).cycles
      = n + 1 ∧
    (((breathingStart hasIntersectionObserver elements dom random).runUntil t
      fuel).motion.isBreathing = true ↔ n % 2 = 0) ∧
    (∀ x, x ∈ ((breathingStart hasIntersectionObserver elements dom random).runUntil t
        fuel).motion.breathingNodes ↔
      x ∈ elements ∧ (dom x).classList.contains "glass" = true) ∧
    (∀ tm ∈ ((breathingStart hasIntersectionObserver elements dom random).runUntil t
      fuel).timers, t < tm.due) ∧
    (6500 * n + 200 ≤ t →
      ∀ x ∈ ((breathingStart hasIntersectionObserver elements dom random).runUntil t
          fuel).motion.breathingNodes,
        ((((breathingStart hasIntersectionObserver elements dom random).runUntil t
          fuel).dom x).classList.contains "is-breathing" = true ↔
        ((breathingStart hasIntersectionObserver elements dom random).runUntil t
          fuel).motion.isBreathing = true)) ∧
    (∀ p : Page,
      (breathingCycle p).cycles = p.cycles + 1 ∧
      (breathingCycle p).motion.isBreathing = (!p.motion.isBreathing) ∧
      (breathingCycle p).timers = p.timers ++
        breathTimers p.random p.now p.nextTimerId p.randomCalls p.motion.breathingNodes) ∧
    (∀ u : UnitSample, 0 ≤ u.jitter ∧ u.jitter < 200 ∧ u.jitterMs = ⌊u.jitter⌋₊) := by
  obtain ⟨hnodes, hinv, hwork⟩ :=
    breathingStart_shape hasIntersectionObserver elements dom random t
  have hq : t / 6500 = n := by omega
  have hbudget : (breathingStart hasIntersectionObserver elements dom random).pendingWork
      (breathingStart hasIntersectionObserver elements dom random).motion.breathingNodes t
      ≤ fuel := by
    rw [hwork, hq]
    rw [Nat.succ_mul] at hfuel
    omega
  obtain ⟨k, ⟨hc, hb, hn, hk, ⟨id, bs, hperm, hbs⟩, hcls⟩, hquiet⟩ :=
    runUntil_settles _ t fuel _ 0 hinv hbudget
  have hkn : k = n := by
    have h1 := hquiet ⟨id, 6500 * (k + 1), some 6500, .breathingCycle⟩
      (hperm.symm.subset (List.mem_cons_self _ _))
    simp only at h1
    omega
  subst hkn
  refine ⟨rfl, hc, ?_, ?_, hquiet, ?_, ?_, jitter_range⟩
  · rw [hb]
    simp
  · intro x
    rw [hn]
    exact hnodes x
  · intro hlate x hx
    rw [hn] at hx
    rcases hcls x hx with h | ⟨b, hb2, hbc⟩
    · rw [h]
    · exfalso
      have hdue := hquiet b hb2
      rcases List.mem_cons.mp (hperm.subset hb2) with h | h
      · rw [h] at hbc
        cases hbc
      · have := (hbs b h).2.2.1
        omega
  · intro p
    obtain ⟨c1, -, c3, c4, -⟩ := breathingCycle_fields p
    exact ⟨c4, by rw [c3], c1⟩

/-- Witness for C10: the sample page at t = 13300, in the third cycle
(n = 2): three runs of `breathingCycle` have happened and the page is in the
breathing phase. -/
theorem breathing_cycle_phases_witness :
    6500 * 2 ≤ 13300 ∧ 13300 < 6500 * (2 + 1) ∧
    (2 + 1) * ((breathingStart true [1, 2, 3, 4, 5] sampleDom
      sampleRandom).motion.breathingNodes.length + 1) ≤ 100 ∧
    ((breathingStart true [1, 2, 3, 4, 5] sampleDom sampleRandom).runUntil 13300 100).cycles
      = 2 + 1 ∧
    (((breathingStart true [1, 2, 3, 4, 5] sampleDom sampleRandom).runUntil 13300
      100).motion.isBreathing = true ↔ 2 % 2 = 0) :=
  ⟨by decide, by decide, by decide,
   (breathing_cycle_phases true [1, 2, 3, 4, 5] sampleDom sampleRandom 2 13300 100
      (by decide) (by decide) (by decide)).2.1,
   (breathing_cycle_phases true [1, 2, 3, 4, 5] sampleDom sampleRandom 2 13300 100
      (by decide) (by decide) (by decide)).2.2.1⟩

end Breathing

end Motion
